import Mathlib

/-!
Verification of the HTLC (hashed time-locked contract) core of the
atomic-swap repository.  The definitions below are a shallow embedding of
`src/contracts/jstz/htlc.js` (the hardened reference implementation of the
swap state machine and of the hand-rolled SHA-256 digest primitive).
Hex strings of the JavaScript code (`0x` + 64 hex characters) are
represented by their byte sequences (`List Nat`, each entry `< 256`);
JavaScript 32-bit unsigned arithmetic (`>>> 0`) is represented by `Nat`
arithmetic reduced modulo `2 ^ 32`.
-/

namespace Htlc

/-- `2 ^ 32`, the modulus of JavaScript `>>> 0` coercions. -/
def M32 : Nat := 4294967296

/-! ## SHA-256 (from `sha256` in `src/contracts/jstz/htlc.js`) -/

/-- `rotr(n, x) = (x >>> n) | (x << (32 - n))` on 32-bit words. -/
def rotr (n x : Nat) : Nat := (x >>> n) ||| ((x <<< (32 - n)) % M32)

/-- `ch(x, y, z) = (x & y) ^ (~x & z)`; `~x` on a 32-bit word is `x ^ 0xffffffff`. -/
def ch (x y z : Nat) : Nat := (x &&& y) ^^^ ((x ^^^ 4294967295) &&& z)

/-- `maj(x, y, z) = (x & y) ^ (x & z) ^ (y & z)`. -/
def maj (x y z : Nat) : Nat := (x &&& y) ^^^ (x &&& z) ^^^ (y &&& z)

/-- `sigma0` of the compression function. -/
def bigSigma0 (x : Nat) : Nat := rotr 2 x ^^^ rotr 13 x ^^^ rotr 22 x

/-- `sigma1` of the compression function. -/
def bigSigma1 (x : Nat) : Nat := rotr 6 x ^^^ rotr 11 x ^^^ rotr 25 x

/-- `gamma0` of the message schedule. -/
def smallSigma0 (x : Nat) : Nat := rotr 7 x ^^^ rotr 18 x ^^^ (x >>> 3)

/-- `gamma1` of the message schedule. -/
def smallSigma1 (x : Nat) : Nat := rotr 17 x ^^^ rotr 19 x ^^^ (x >>> 10)

/-- The 64 round constants `K` of the source. -/
def K : List Nat :=
  [0x428a2f98, 0x71374491, 0xb5c0fbcf, 0xe9b5dba5, 0x3956c25b, 0x59f111f1, 0x923f82a4, 0xab1c5ed5] ++
    [0xd807aa98, 0x12835b01, 0x243185be, 0x550c7dc3, 0x72be5d74, 0x80deb1fe, 0x9bdc06a7, 0xc19bf174] ++
    [0xe49b69c1, 0xefbe4786, 0x0fc19dc6, 0x240ca1cc, 0x2de92c6f, 0x4a7484aa, 0x5cb0a9dc, 0x76f988da] ++
    [0x983e5152, 0xa831c66d, 0xb00327c8, 0xbf597fc7, 0xc6e00bf3, 0xd5a79147, 0x06ca6351, 0x14292967] ++
    [0x27b70a85, 0x2e1b2138, 0x4d2c6dfc, 0x53380d13, 0x650a7354, 0x766a0abb, 0x81c2c92e, 0x92722c85] ++
    [0xa2bfe8a1, 0xa81a664b, 0xc24b8b70, 0xc76c51a3, 0xd192e819, 0xd6990624, 0xf40e3585, 0x106aa070] ++
    [0x19a4c116, 0x1e376c08, 0x2748774c, 0x34b0bcb5, 0x391c0cb3, 0x4ed8aa4a, 0x5b9cca4f, 0x682e6ff3] ++
    [0x748f82ee, 0x78a5636f, 0x84c87814, 0x8cc70208, 0x90befffa, 0xa4506ceb, 0xbef9a3f7, 0xc67178f2]

/-- The initial hash value `H` of the source. -/
def H0 : List Nat :=
  [0x6a09e667, 0xbb67ae85, 0x3c6ef372, 0xa54ff53a, 0x510e527f, 0x9b05688c, 0x1f83d9ab, 0x5be0cd19]

/-- Load a 64-byte chunk into 16 big-endian 32-bit words
    (`W[t] = (b0 << 24) | (b1 << 16) | (b2 << 8) | b3`). -/
def toWords (block : List Nat) : List Nat :=
  (List.range 16).map fun t =>
    ((block.getD (4 * t) 0) <<< 24) ||| ((block.getD (4 * t + 1) 0) <<< 16) |||
      ((block.getD (4 * t + 2) 0) <<< 8) ||| block.getD (4 * t + 3) 0

/-- Extend the 16 chunk words to the 64-entry message schedule
    (`W[t] = gamma1(W[t-2]) + W[t-7] + gamma0(W[t-15]) + W[t-16]`, mod `2^32`). -/
def msgSchedule (w16 : List Nat) : List Nat :=
  (List.range 48).foldl
    (fun w _ =>
      w ++ [(smallSigma1 (w.getD (w.length - 2) 0) + w.getD (w.length - 7) 0 +
              smallSigma0 (w.getD (w.length - 15) 0) + w.getD (w.length - 16) 0) % M32])
    w16

/-- The eight working registers `a`..`h` of the main loop. -/
structure Regs where
  a : Nat
  b : Nat
  c : Nat
  d : Nat
  e : Nat
  f : Nat
  g : Nat
  h : Nat
deriving Repr, DecidableEq

/-- One round of the main loop of the source. -/
def shaRound (r : Regs) (kt wt : Nat) : Regs :=
  let T1 := (r.h + bigSigma1 r.e + ch r.e r.f r.g + kt + wt) % M32
  let T2 := (bigSigma0 r.a + maj r.a r.b r.c) % M32
  { a := (T1 + T2) % M32, b := r.a, c := r.b, d := r.c,
    e := (r.d + T1) % M32, f := r.e, g := r.f, h := r.g }

/-- Process one 64-byte chunk, updating the running hash `hs` (8 words). -/
def processBlock (hs : List Nat) (block : List Nat) : List Nat :=
  let ws := msgSchedule (toWords block)
  let r0 : Regs :=
    { a := hs.getD 0 0, b := hs.getD 1 0, c := hs.getD 2 0, d := hs.getD 3 0,
      e := hs.getD 4 0, f := hs.getD 5 0, g := hs.getD 6 0, h := hs.getD 7 0 }
  let r := (List.range 64).foldl (fun r t => shaRound r (K.getD t 0) (ws.getD t 0)) r0
  [(hs.getD 0 0 + r.a) % M32, (hs.getD 1 0 + r.b) % M32, (hs.getD 2 0 + r.c) % M32,
   (hs.getD 3 0 + r.d) % M32, (hs.getD 4 0 + r.e) % M32, (hs.getD 5 0 + r.f) % M32,
   (hs.getD 6 0 + r.g) % M32, (hs.getD 7 0 + r.h) % M32]

/-- A 32-bit word as four big-endian bytes. -/
def be32 (n : Nat) : List Nat := [(n >>> 24) &&& 255, (n >>> 16) &&& 255, (n >>> 8) &&& 255, n &&& 255]

/-- Number of zero bytes pushed by the `while ((bytes.length % 64) !== 56)` loop
    after the `0x80` byte, for an `n`-byte message. -/
def shaPadZeros (n : Nat) : Nat := (120 - (n + 1) % 64) % 64

/-- The source's padding: `0x80`, zeros to 56 mod 64, then `0,0,0,0` followed by
    the four bytes of `bitLen >>> 24` .. `bitLen & 0xff` (i.e. the bit length
    truncated to 32 bits, big-endian). -/
def shaPad (m : List Nat) : List Nat :=
  m ++ 128 :: List.replicate (shaPadZeros m.length) 0 ++ [0, 0, 0, 0] ++ be32 ((8 * m.length) % M32)

/-- Split a byte sequence into 64-byte chunks (`l.length` bounds the number of
    chunks, so it serves as structural fuel). -/
def toBlocksAux : Nat → List Nat → List (List Nat)
  | 0, _ => []
  | _, [] => []
  | fuel + 1, l => l.take 64 :: toBlocksAux fuel (l.drop 64)

/-- Split a byte sequence into 64-byte chunks. -/
def toBlocks (l : List Nat) : List (List Nat) := toBlocksAux l.length l

/-- SHA-256 of a byte sequence, as the 32 digest bytes
    (the source renders these same words as `0x` + 64 hex characters). -/
def sha256 (m : List Nat) : List Nat :=
  (((toBlocks (shaPad m)).foldl processBlock H0).map be32).flatten

/-- Modelled from the spec: the standard SHA-256 padding ("message padding to a
    multiple of the block size with an appended bit-length suffix") carries the
    full 64-bit big-endian bit length, unlike the source's 32-bit-truncated one. -/
def shaPadStd (m : List Nat) : List Nat :=
  m ++ 128 :: List.replicate (shaPadZeros m.length) 0 ++
    (be32 ((8 * m.length) / M32) ++ be32 ((8 * m.length) % M32))

/-- Modelled from the spec: standard SHA-256 (identical compression pipeline,
    standard 64-bit length suffix). -/
def sha256Std (m : List Nat) : List Nat :=
  (((toBlocks (shaPadStd m)).foldl processBlock H0).map be32).flatten

/-! ## Data model (from `src/contracts/jstz/htlc.js`) -/

/-- The `SwapStatus` enum of the source. -/
inductive SwapStatus
  | OPEN
  | CLAIMED
  | REFUNDED
deriving DecidableEq, Repr

/-- A swap record as stored in the Kv store (JSON object of the source).
    `amountXtz` (a derived floating-point display value) is omitted;
    the optional fields added on resolution are `Option`s. -/
structure Swap where
  hashlock : List Nat
  sender : String
  recipient : Option String
  amountMutez : Nat
  expiration : Nat
  status : SwapStatus
  createdAt : Nat
  claimedBy : Option String
  claimedAt : Option Nat
  revealedSecret : Option (List Nat)
  refundedAt : Option Nat
deriving DecidableEq, Repr

/-- The persistent state: the per-hashlock records plus the `swap_keys`
    enumeration index.  A hex key of the source is its byte sequence here. -/
structure Store where
  swaps : List (List Nat × Swap)
  swapKeys : List (List Nat)
deriving DecidableEq, Repr

/-- The rejection reasons thrown by the source (each `throw new Error(...)`
    message is one constructor). -/
inductive HtlcError
  | InvalidHashlockFormat
  | SecretRequired
  | InvalidSecretFormat
  | ClaimerRequired
  | RefunderRequired
  | SenderRequired
  | InvalidRecipient
  | InvalidExpiration
  | ExpirationNotFuture
  | InsufficientAmount
  | AlreadyExists
  | SwapNotFound
  | SwapNotOpen
  | SwapExpired
  | SecretMismatch
  | NotRecipient
  | NotYetExpired
  | NotSender
deriving DecidableEq, Repr

/-- The `X-JSTZ-TRANSFER` response of a successful `claim`/`refund`: the
    runtime moves `amountMutez` to the caller of the request. -/
structure TransferInstruction where
  amountMutez : Nat
  destination : String
deriving DecidableEq, Repr

deriving instance DecidableEq for Except

/-- The `.ok` payload of a result, if any. -/
def resultOk {α : Type} : Except HtlcError α → Option α
  | .ok v => some v
  | .error _ => none

/-! ## Validation and storage helpers -/

/-- `isValidHashlock`: `0x` + exactly 64 hex characters, i.e. exactly 32 bytes
    in the byte representation. -/
def isValidHashlock (h : List Nat) : Bool := h.length == 32 && h.all (· < 256)

/-- `isValidAddress`: the regex `^(tz[1-3]|KT1)[a-zA-Z0-9]{33}$`. -/
def isValidAddress (a : String) : Bool :=
  match a.data with
  | c1 :: c2 :: c3 :: rest =>
      ((c1 == 't' && c2 == 'z' && (c3 == '1' || c3 == '2' || c3 == '3')) ||
        (c1 == 'K' && c2 == 'T' && c3 == '1')) &&
        rest.length == 33 && rest.all (fun c => c.isAlpha || c.isDigit)
  | _ => false

/-- The caller-identity guard `!x || x === 'anonymous'` of the source
    (the empty string is the only falsy string). -/
def presentCaller (a : String) : Bool := a != "" && a != "anonymous"

/-- Association-list lookup backing `Kv.get`. -/
def kvGet : List (List Nat × Swap) → List Nat → Option Swap
  | [], _ => none
  | (k', v') :: rest, k => if k' = k then some v' else kvGet rest k

/-- Association-list update backing `Kv.set`. -/
def kvSet : List (List Nat × Swap) → List Nat → Swap → List (List Nat × Swap)
  | [], k, v => [(k, v)]
  | (k', v') :: rest, k, v => if k' = k then (k, v) :: rest else (k', v') :: kvSet rest k v

/-- `getSwapFromKv`: validate the hashlock format, then read the record. -/
def getSwapFromKv (st : Store) (h : List Nat) : Option Swap :=
  if isValidHashlock h then kvGet st.swaps h else none

/-- `saveSwapToKv`. -/
def saveSwapToKv (st : Store) (h : List Nat) (sw : Swap) : Store :=
  { st with swaps := kvSet st.swaps h sw }

/-- JavaScript `arr.slice(start)` with a single integer argument:
    a negative start counts from the end, clamped at 0. -/
def jsSliceStart {α : Type} (l : List α) (start : Int) : List α :=
  if start < 0 then l.drop ((l.length + start).toNat) else l.drop start.toNat

/-- `getAllSwapKeys(limit)`: `allKeys.slice(-limit)`.  `limit = none` models a
    JavaScript `NaN` limit, for which `slice(-NaN)` is `slice(0)` (no cut). -/
def getAllSwapKeys (st : Store) (limit : Option Int) : List (List Nat) :=
  jsSliceStart st.swapKeys (match limit with | none => 0 | some v => -v)

/-- `addSwapKey`: append the key to the (last-10000 view of the) index if it is
    not already there, pruned to the last 1000 keys. -/
def addSwapKey (st : Store) (h : List Nat) : Store :=
  let keys := getAllSwapKeys st (some 10000)
  if keys.contains h then st
  else { st with swapKeys := jsSliceStart (keys ++ [h]) (-1000) }

/-! ## Core HTLC operations.  Each operation takes the current time `t`
    (`now()` of the source) and the pre-call store, and returns the post-call
    store together with the result; a thrown `Error` is an `.error` result and,
    as in the source, every throw happens before any store mutation. -/

/-- The recipient guard of `initiate`: `recipient && !isValidAddress(recipient)`. -/
def recipientInvalid (rec : Option String) : Bool :=
  match rec with
  | some r => r != "" && !isValidAddress r
  | none => false

/-- `recipient || null` as stored in the new record. -/
def normalizeRecipient (rec : Option String) : Option String :=
  match rec with
  | some r => if r = "" then none else some r
  | none => none

/-- `initiate(hashlock, recipient, expiration, amountMutez, sender)`. -/
def initiate (t : Nat) (st : Store) (hashlock : List Nat) (recipient : Option String)
    (expiration : Nat) (amountMutez : Nat) (sender : String) :
    Store × Except HtlcError Swap :=
  if !isValidHashlock hashlock then (st, .error .InvalidHashlockFormat)
  else if amountMutez < 1000 then (st, .error .InsufficientAmount)
  else if expiration = 0 then (st, .error .InvalidExpiration)
  else if expiration ≤ t then (st, .error .ExpirationNotFuture)
  else if !presentCaller sender then (st, .error .SenderRequired)
  else if recipientInvalid recipient then (st, .error .InvalidRecipient)
  else if (getSwapFromKv st hashlock).isSome then (st, .error .AlreadyExists)
  else
    let sw : Swap :=
      { hashlock := hashlock, sender := sender, recipient := normalizeRecipient recipient,
        amountMutez := amountMutez, expiration := expiration,
        status := .OPEN, createdAt := t,
        claimedBy := none, claimedAt := none, revealedSecret := none, refundedAt := none }
    (addSwapKey (saveSwapToKv st hashlock sw) hashlock, .ok sw)

/-- The recipient-authorization guard of `claim`:
    `swap.recipient && swap.recipient !== claimer`. -/
def recipientBlocks (rec : Option String) (claimer : String) : Bool :=
  match rec with
  | some r => r != "" && r != claimer
  | none => false

/-- `claim(hashlock, secret, claimer)`. -/
def claim (t : Nat) (st : Store) (hashlock secret : List Nat) (claimer : String) :
    Store × Except HtlcError TransferInstruction :=
  if !isValidHashlock hashlock then (st, .error .InvalidHashlockFormat)
  else if secret = [] then (st, .error .SecretRequired)
  else if !isValidHashlock secret then (st, .error .InvalidSecretFormat)
  else if !presentCaller claimer then (st, .error .ClaimerRequired)
  else
    match getSwapFromKv st hashlock with
    | none => (st, .error .SwapNotFound)
    | some sw =>
      if sw.status ≠ .OPEN then (st, .error .SwapNotOpen)
      else if sw.expiration ≤ t then (st, .error .SwapExpired)
      else if sha256 secret ≠ hashlock then (st, .error .SecretMismatch)
      else if recipientBlocks sw.recipient claimer then (st, .error .NotRecipient)
      else
        let sw' : Swap :=
          { sw with status := .CLAIMED, claimedBy := some claimer,
                    claimedAt := some t, revealedSecret := some secret }
        (saveSwapToKv st hashlock sw', .ok ⟨sw.amountMutez, claimer⟩)

/-- `refund(hashlock, refunder)`. -/
def refund (t : Nat) (st : Store) (hashlock : List Nat) (refunder : String) :
    Store × Except HtlcError TransferInstruction :=
  if !isValidHashlock hashlock then (st, .error .InvalidHashlockFormat)
  else if !presentCaller refunder then (st, .error .RefunderRequired)
  else
    match getSwapFromKv st hashlock with
    | none => (st, .error .SwapNotFound)
    | some sw =>
      if sw.status ≠ .OPEN then (st, .error .SwapNotOpen)
      else if t < sw.expiration then (st, .error .NotYetExpired)
      else if sw.sender ≠ refunder then (st, .error .NotSender)
      else
        let sw' : Swap := { sw with status := .REFUNDED, refundedAt := some t }
        (saveSwapToKv st hashlock sw', .ok ⟨sw.amountMutez, refunder⟩)

/-! ## Read operations -/

/-- The redaction of `getSwap`/`listSwaps`: drop `revealedSecret` unless the
    swap is already claimed. -/
def redactSwap (sw : Swap) : Swap :=
  if sw.status = .CLAIMED then sw else { sw with revealedSecret := none }

/-- `getSwap(hashlock)`: the redacted view, `none` when not found
    (the source's `found: false` responses). -/
def getSwap (st : Store) (hashlock : List Nat) : Option Swap :=
  (getSwapFromKv st hashlock).map redactSwap

/-- The status filter `!filterStatus || swap.status === filterStatus`. -/
def statusMatches (filter : Option SwapStatus) (s : SwapStatus) : Bool :=
  match filter with
  | none => true
  | some x => s == x

/-- `listSwaps(filterStatus, limit)`: iterate the (sliced) index, skip missing
    records, filter by status, redact secrets. -/
def listSwaps (st : Store) (filter : Option SwapStatus) (limit : Option Int) : List Swap :=
  (getAllSwapKeys st limit).filterMap fun k =>
    match getSwapFromKv st k with
    | some sw => if statusMatches filter sw.status then some (redactSwap sw) else none
    | none => none

/-! ## The `/swaps` endpoint's limit handling
    (`Math.min(parseInt(raw || MAX_SWAPS_LIST), MAX_SWAPS_LIST)`). -/

/-- Digit run to a number, as `parseInt` accumulates it. -/
def digitsToNat : List Char → Nat → Nat
  | [], acc => acc
  | c :: cs, acc => digitsToNat cs (acc * 10 + (c.toNat - 48))

/-- JavaScript `parseInt(s, 10)`: skip leading spaces, optional sign, then the
    leading digit run; `none` models `NaN` (no digits). -/
def jsParseInt (s : String) : Option Int :=
  let cs := s.data.dropWhile (fun c => c == ' ')
  match cs with
  | '-' :: rest =>
      let ds := rest.takeWhile Char.isDigit
      if ds = [] then none else some (-(digitsToNat ds 0 : Int))
  | '+' :: rest =>
      let ds := rest.takeWhile Char.isDigit
      if ds = [] then none else some ((digitsToNat ds 0 : Int))
  | _ =>
      let ds := cs.takeWhile Char.isDigit
      if ds = [] then none else some ((digitsToNat ds 0 : Int))

/-- The handler's effective limit: absent (or falsy) raw value defaults to 100,
    then `Math.min(·, 100)` — which propagates `NaN` (`none`). -/
def swapsEndpointLimit (rawLimit : Option String) : Option Int :=
  let base : Option Int :=
    match rawLimit with
    | none => some 100
    | some s => if s = "" then some 100 else jsParseInt s
  base.map (fun v => min v 100)

/-- The `/swaps` route: `listSwaps(status, Math.min(parseInt(limit), 100))`. -/
def swapsEndpoint (st : Store) (statusFilter : Option SwapStatus) (rawLimit : Option String) :
    List Swap :=
  listSwaps st statusFilter (swapsEndpointLimit rawLimit)

/-! ## Store invariant and reachable states -/

/-- Record well-formedness established by `initiate` and preserved by
    `claim`/`refund`: a present sender identity, the record keyed by its own
    hashlock, `revealedSecret` exactly on claimed records, and no empty-string
    recipient (`initiate` normalizes falsy recipients to `null`). -/
def Inv (st : Store) : Prop :=
  ∀ p ∈ st.swaps,
    p.2.sender ≠ "" ∧ p.2.sender ≠ "anonymous" ∧ p.2.hashlock = p.1 ∧
      (p.2.revealedSecret.isSome ↔ p.2.status = .CLAIMED) ∧ p.2.recipient ≠ some ""

instance (st : Store) : Decidable (Inv st) := by
  unfold Inv; infer_instance

/-- Stores reachable from the empty store through the three mutating
    operations. -/
inductive Reachable : Store → Prop
  | empty : Reachable ⟨[], []⟩
  | step_initiate (t : Nat) (st : Store) (h : List Nat) (rec : Option String)
      (exp amt : Nat) (snd : String) :
      Reachable st → Reachable (initiate t st h rec exp amt snd).1
  | step_claim (t : Nat) (st : Store) (h s : List Nat) (c : String) :
      Reachable st → Reachable (claim t st h s c).1
  | step_refund (t : Nat) (st : Store) (h : List Nat) (r : String) :
      Reachable st → Reachable (refund t st h r).1

/-! ## Helper lemmas -/

theorem kvGet_kvSet_self (l : List (List Nat × Swap)) (k : List Nat) (v : Swap) :
    kvGet (kvSet l k v) k = some v := by
  induction l with
  | nil => simp [kvGet, kvSet]
  | cons p rest ih =>
      by_cases hk : p.1 = k
      · simp [kvSet, hk, kvGet]
      · simp [kvSet, hk, kvGet, ih]

theorem kvGet_kvSet_ne (l : List (List Nat × Swap)) (k k' : List Nat) (v : Swap)
    (hne : k' ≠ k) : kvGet (kvSet l k v) k' = kvGet l k' := by
  have hkk' : ¬(k = k') := fun hh => hne hh.symm
  induction l with
  | nil => simp [kvGet, kvSet, hkk']
  | cons p rest ih =>
      by_cases hk : p.1 = k
      · have hpk' : ¬(p.1 = k') := by rw [hk]; exact hkk'
        simp [kvSet, kvGet, hk, hkk', hpk']
      · by_cases hk2 : p.1 = k'
        · simp [kvSet, kvGet, hk, hk2, hne]
        · simp [kvSet, kvGet, hk, hk2, ih]

theorem mem_kvSet (l : List (List Nat × Swap)) (k : List Nat) (v : Swap)
    (p : List Nat × Swap) (hp : p ∈ kvSet l k v) : p = (k, v) ∨ p ∈ l := by
  induction l with
  | nil => simpa [kvSet] using hp
  | cons q rest ih =>
      by_cases hk : q.1 = k
      · simp only [kvSet, hk, if_true] at hp
        rcases List.mem_cons.1 hp with h | h
        · exact Or.inl h
        · exact Or.inr (List.mem_cons_of_mem _ h)
      · simp only [kvSet, hk, if_false] at hp
        rcases List.mem_cons.1 hp with h | h
        · exact Or.inr (h ▸ List.mem_cons_self _ _)
        · rcases ih h with h2 | h2
          · exact Or.inl h2
          · exact Or.inr (List.mem_cons_of_mem _ h2)

theorem kvGet_mem (l : List (List Nat × Swap)) (k : List Nat) (sw : Swap)
    (hg : kvGet l k = some sw) : (k, sw) ∈ l := by
  induction l with
  | nil => simp [kvGet] at hg
  | cons q rest ih =>
      by_cases hk : q.1 = k
      · simp only [kvGet, hk, if_true, Option.some.injEq] at hg
        subst hg
        have : q = (k, q.2) := by rw [← hk]
        rw [← this]
        exact List.mem_cons_self _ _
      · simp only [kvGet, hk, if_false] at hg
        exact List.mem_cons_of_mem _ (ih hg)

theorem getSwapFromKv_some (st : Store) (h : List Nat) (sw : Swap)
    (hg : getSwapFromKv st h = some sw) :
    isValidHashlock h = true ∧ kvGet st.swaps h = some sw ∧ (h, sw) ∈ st.swaps := by
  unfold getSwapFromKv at hg
  by_cases hv : isValidHashlock h
  · simp only [hv, if_true] at hg
    exact ⟨hv, hg, kvGet_mem _ _ _ hg⟩
  · simp [hv] at hg

theorem jsSliceStart_zero {α : Type} (l : List α) : jsSliceStart l 0 = l := by
  simp [jsSliceStart]

theorem jsSliceStart_neg_of_le {α : Type} (l : List α) (n : Nat)
    (hle : l.length ≤ n) (hn : 0 < n) : jsSliceStart l (-(n : Int)) = l := by
  unfold jsSliceStart
  have hlt : -(n : Int) < 0 := by omega
  simp only [hlt, if_true]
  have : ((l.length : Int) + -(n : Int)).toNat = 0 := by omega
  simp [this]

theorem jsSliceStart_neg {α : Type} (l : List α) (n : Nat) (hn : 0 < n) :
    jsSliceStart l (-(n : Int)) = l.drop (l.length - n) := by
  unfold jsSliceStart
  have hlt : -(n : Int) < 0 := by omega
  simp only [hlt, if_true]
  congr 1
  omega

theorem addSwapKey_swaps (st : Store) (h : List Nat) : (addSwapKey st h).swaps = st.swaps := by
  unfold addSwapKey
  by_cases hc : h ∈ getAllSwapKeys st (some 10000) <;> simp [hc]

/-- Every rejection path of `claim` returns the input store. -/
theorem claim_frame (t : Nat) (st : Store) (h s : List Nat) (c : String) :
    (claim t st h s c).1 = st ∨ ∃ i, (claim t st h s c).2 = .ok i := by
  unfold claim
  repeat' split
  all_goals first
    | exact Or.inl rfl
    | exact Or.inr ⟨_, rfl⟩

/-- Every rejection path of `refund` returns the input store. -/
theorem refund_frame (t : Nat) (st : Store) (h : List Nat) (r : String) :
    (refund t st h r).1 = st ∨ ∃ i, (refund t st h r).2 = .ok i := by
  unfold refund
  repeat' split
  all_goals first
    | exact Or.inl rfl
    | exact Or.inr ⟨_, rfl⟩

/-- Every rejection path of `initiate` returns the input store. -/
theorem initiate_frame (t : Nat) (st : Store) (h : List Nat) (rec : Option String)
    (exp amt : Nat) (snd : String) :
    (initiate t st h rec exp amt snd).1 = st ∨ ∃ sw, (initiate t st h rec exp amt snd).2 = .ok sw := by
  unfold initiate
  repeat' split
  all_goals first
    | exact Or.inl rfl
    | exact Or.inr ⟨_, rfl⟩

theorem normalizeRecipient_ne_empty (rec : Option String) :
    normalizeRecipient rec ≠ some "" := by
  unfold normalizeRecipient
  cases rec with
  | none => simp
  | some r => by_cases hr : r = "" <;> simp [hr]

theorem presentCaller_spec (a : String) (hp : presentCaller a = true) :
    a ≠ "" ∧ a ≠ "anonymous" := by
  unfold presentCaller at hp
  simp only [Bool.and_eq_true, bne_iff_ne, ne_eq] at hp
  exact hp

theorem inv_addSwapKey (st : Store) (h : List Nat) (hI : Inv st) : Inv (addSwapKey st h) := by
  intro p hp
  rw [addSwapKey_swaps] at hp
  exact hI p hp

theorem inv_saveSwapToKv (st : Store) (h : List Nat) (sw : Swap) (hI : Inv st)
    (h1 : sw.sender ≠ "") (h2 : sw.sender ≠ "anonymous") (h3 : sw.hashlock = h)
    (h4 : sw.revealedSecret.isSome ↔ sw.status = .CLAIMED) (h5 : sw.recipient ≠ some "") :
    Inv (saveSwapToKv st h sw) := by
  intro p hp
  simp only [saveSwapToKv] at hp
  rcases mem_kvSet _ _ _ _ hp with hpe | hpm
  · subst hpe
    exact ⟨h1, h2, h3, h4, h5⟩
  · exact hI p hpm

theorem inv_initiate (t : Nat) (st : Store) (h : List Nat) (rec : Option String)
    (exp amt : Nat) (snd : String) (hI : Inv st) :
    Inv (initiate t st h rec exp amt snd).1 := by
  unfold initiate
  repeat' split
  all_goals try exact hI
  rename_i hhl hamt hexp hfut hsnd hrec hdup
  refine inv_addSwapKey _ _ (inv_saveSwapToKv _ _ _ hI ?_ ?_ rfl ?_ ?_)
  · exact (presentCaller_spec snd (by simpa using hsnd)).1
  · exact (presentCaller_spec snd (by simpa using hsnd)).2
  · simp
  · exact normalizeRecipient_ne_empty rec

theorem inv_claim (t : Nat) (st : Store) (h s : List Nat) (c : String) (hI : Inv st) :
    Inv (claim t st h s c).1 := by
  unfold claim
  repeat' split
  all_goals try exact hI
  rename_i sw hget hopen hexp hsha hrec
  have hmem := (getSwapFromKv_some st h sw hget).2.2
  have hsw := hI (h, sw) hmem
  refine inv_saveSwapToKv _ _ _ hI hsw.1 hsw.2.1 hsw.2.2.1 ?_ hsw.2.2.2.2
  simp

theorem inv_refund (t : Nat) (st : Store) (h : List Nat) (r : String) (hI : Inv st) :
    Inv (refund t st h r).1 := by
  unfold refund
  repeat' split
  all_goals try exact hI
  rename_i sw hget hopen hexp hsnd
  have hmem := (getSwapFromKv_some st h sw hget).2.2
  have hsw := hI (h, sw) hmem
  refine inv_saveSwapToKv _ _ _ hI hsw.1 hsw.2.1 hsw.2.2.1 ?_ hsw.2.2.2.2
  have hnotcl : sw.status ≠ SwapStatus.CLAIMED := by
    intro hc
    simp only [not_not] at hopen
    rw [hopen] at hc
    exact SwapStatus.noConfusion hc
  have : sw.revealedSecret.isSome = false := by
    by_contra hb
    simp only [Bool.not_eq_false] at hb
    exact hnotcl (hsw.2.2.2.1.1 hb)
  simp [this]

theorem reachable_inv (st : Store) (hR : Reachable st) : Inv st := by
  induction hR with
  | empty => intro p hp; simp at hp
  | step_initiate t st h rec exp amt snd _ ih => exact inv_initiate t st h rec exp amt snd ih
  | step_claim t st h s c _ ih => exact inv_claim t st h s c ih
  | step_refund t st h r _ ih => exact inv_refund t st h r ih

/-! ## Concrete test fixtures -/

/-- A valid 32-byte hashlock derived from an index. -/
def mkKey (i : Nat) : List Nat := i % 256 :: (i / 256) % 256 :: List.replicate 30 0

/-- An open test swap stored under `mkKey i`. -/
def mkSwap (i : Nat) : Swap :=
  { hashlock := mkKey i, sender := "tz1SenderSenderSenderSenderSenderSen",
    recipient := none, amountMutez := 2000, expiration := 1000000,
    status := .OPEN, createdAt := 1,
    claimedBy := none, claimedAt := none, revealedSecret := none, refundedAt := none }

/-- A store with `n` open swaps, both recorded and indexed. -/
def mkStore (n : Nat) : Store :=
  { swaps := (List.range n).map (fun i => (mkKey i, mkSwap i)),
    swapKeys := (List.range n).map mkKey }

/-! ## Claim C4 -/

/-- C4: every `initiate`, `claim` or `refund` call that returns a rejection
    leaves the store — all swap records and the enumeration index — exactly in
    its pre-call state; each operation either fully commits or does not mutate. -/
theorem no_mutation_on_failure
    (t : Nat) (st : Store) (h s : List Nat) (rec : Option String) (exp amt : Nat)
    (snd c r : String) (e1 e2 e3 : HtlcError) :
    ((initiate t st h rec exp amt snd).2 = .error e1 → (initiate t st h rec exp amt snd).1 = st) ∧
    ((claim t st h s c).2 = .error e2 → (claim t st h s c).1 = st) ∧
    ((refund t st h r).2 = .error e3 → (refund t st h r).1 = st) := by
  refine ⟨fun hE => ?_, fun hE => ?_, fun hE => ?_⟩
  · rcases initiate_frame t st h rec exp amt snd with hst | ⟨sw, hok⟩
    · exact hst
    · rw [hok] at hE; exact Except.noConfusion hE
  · rcases claim_frame t st h s c with hst | ⟨i, hok⟩
    · exact hst
    · rw [hok] at hE; exact Except.noConfusion hE
  · rcases refund_frame t st h r with hst | ⟨i, hok⟩
    · exact hst
    · rw [hok] at hE; exact Except.noConfusion hE

/-- Witness for C4: a concrete rejected claim (empty secret) against the empty
    store leaves it unchanged. -/
theorem no_mutation_on_failure_witness :
    (claim 0 ⟨[], []⟩ (mkKey 1) [] "tz1x").2 = .error .SecretRequired ∧
    (claim 0 ⟨[], []⟩ (mkKey 1) [] "tz1x").1 = ⟨[], []⟩ :=
  ⟨by decide,
   (no_mutation_on_failure 0 ⟨[], []⟩ (mkKey 1) [] none 0 0 "" "tz1x" ""
      .SecretRequired .SecretRequired .SecretRequired).2.1 (by decide)⟩

/-! ## Claim C5 -/

/-- The two-block NIST test message
    `"abcdbcdecdefdefgefghfghighijhijkijkljklmklmnlmnomnopnopq"`. -/
def nistMsg2 : List Nat :=
  "abcdbcdecdefdefgefghfghighijhijkijkljklmklmnlmnomnopnopq".data.map Char.toNat

set_option maxRecDepth 40000 in
/-- C5: the source's `sha256` matches the published SHA-256 test vectors on
    empty, single-block and multi-block inputs, agrees with the standard
    algorithm (64-bit length suffix) on every message it can encode
    (bit length below `2^32`), and is deterministic. -/
theorem sha256_digest_correct :
    (sha256 [] =
      [227, 176, 196, 66, 152, 252, 28, 20, 154, 251, 244, 200, 153, 111, 185, 36,
       39, 174, 65, 228, 100, 155, 147, 76, 164, 149, 153, 27, 120, 82, 184, 85]) ∧
    (sha256 [97, 98, 99] =
      [186, 120, 22, 191, 143, 1, 207, 234, 65, 65, 64, 222, 93, 174, 34, 35,
       176, 3, 97, 163, 150, 23, 122, 156, 180, 16, 255, 97, 242, 0, 21, 173]) ∧
    (sha256 nistMsg2 =
      [36, 141, 106, 97, 210, 6, 56, 184, 229, 192, 38, 147, 12, 62, 96, 57,
       163, 60, 228, 89, 100, 255, 33, 103, 246, 236, 237, 212, 25, 219, 6, 193]) ∧
    (∀ m : List Nat, 8 * m.length < M32 → sha256 m = sha256Std m) ∧
    (∀ m₁ m₂ : List Nat, m₁ = m₂ → sha256 m₁ = sha256 m₂) := by
  refine ⟨by decide, by decide, by decide, fun m hm => ?_, fun m₁ m₂ hm => hm ▸ rfl⟩
  unfold sha256 sha256Std
  have h1 : 8 * m.length / M32 = 0 := Nat.div_eq_of_lt hm
  have h2 : shaPad m = shaPadStd m := by
    unfold shaPad shaPadStd
    rw [h1]
    simp [be32]
  rw [h2]

/-- Witness for C5: the source digest and the standard digest agree on `"abc"`. -/
theorem sha256_digest_correct_witness :
    8 * ([97, 98, 99] : List Nat).length < M32 ∧ sha256 [97, 98, 99] = sha256Std [97, 98, 99] :=
  ⟨by decide, sha256_digest_correct.2.2.2.1 [97, 98, 99] (by decide)⟩

/-- The `2^29`-byte zero message: its bit length is exactly `2^32`, the first
    value the source's 32-bit-truncated length field cannot represent. -/
def hugeMsg : List Nat := List.replicate 536870912 0

/-- C5 counterexample: at the `2^29`-byte message the source does not run the
    standard algorithm — it appends an all-zero length field (`0,0,0,0` plus
    the truncated bit length `2^32 % 2^32 = 0`) where the standard 64-bit
    length suffix is `0,0,0,1,0,0,0,0`, so the padded stream the source
    compresses differs from the standard one. -/
theorem sha256_standard_counterexample :
    ([0, 0, 0, 0] ++ be32 ((8 * hugeMsg.length) % M32) =
      List.replicate 8 0) ∧
    (be32 ((8 * hugeMsg.length) / M32) ++ be32 ((8 * hugeMsg.length) % M32) =
      [0, 0, 0, 1, 0, 0, 0, 0]) ∧
    shaPad hugeMsg ≠ shaPadStd hugeMsg := by
  have hlen : hugeMsg.length = 536870912 := List.length_replicate 536870912 0
  have hmod : (8 * hugeMsg.length) % M32 = 0 := by rw [hlen]; norm_num [M32]
  have hdiv : (8 * hugeMsg.length) / M32 = 1 := by rw [hlen]; norm_num [M32]
  have hz : shaPadZeros hugeMsg.length = 55 := by rw [hlen]; norm_num [shaPadZeros]
  refine ⟨by rw [hmod]; decide, by rw [hdiv, hmod]; decide, fun heq => ?_⟩
  unfold shaPad shaPadStd at heq
  rw [hmod, hdiv, hz] at heq
  simp only [List.append_assoc] at heq
  have h0 := congrArg (fun l : List Nat => l.drop hugeMsg.length) heq
  dsimp only at h0
  rw [List.drop_left, List.drop_left] at h0
  exact absurd h0 (by decide)

theorem presentCaller_of (a : String) (h1 : a ≠ "") (h2 : a ≠ "anonymous") :
    presentCaller a = true := by
  simp [presentCaller, h1, h2]

theorem isValidHashlock_ne_nil (s : List Nat) (hs : isValidHashlock s = true) : s ≠ [] := by
  intro h0
  rw [h0] at hs
  exact absurd hs (by decide)

theorem getSwapFromKv_save_self (st : Store) (h : List Nat) (sw : Swap)
    (hv : isValidHashlock h = true) :
    getSwapFromKv (saveSwapToKv st h sw) h = some sw := by
  unfold getSwapFromKv saveSwapToKv
  simp [hv, kvGet_kvSet_self]

theorem getSwapFromKv_save_ne (st : Store) (h h' : List Nat) (sw : Swap)
    (hne : h' ≠ h) :
    getSwapFromKv (saveSwapToKv st h sw) h' = getSwapFromKv st h' := by
  unfold getSwapFromKv saveSwapToKv
  by_cases hv : isValidHashlock h'
  · simp [hv, kvGet_kvSet_ne _ _ _ _ hne]
  · simp [hv]

/-- Total characterization of `claim`: either a rejection that leaves the
    store unchanged, or the unique success shape. -/
theorem claim_total (t : Nat) (st : Store) (h s : List Nat) (c : String) :
    (∃ e, claim t st h s c = (st, .error e)) ∨
    (∃ sw, getSwapFromKv st h = some sw ∧ sw.status = .OPEN ∧ t < sw.expiration ∧
      sha256 s = h ∧ isValidHashlock s = true ∧ presentCaller c = true ∧
      recipientBlocks sw.recipient c = false ∧
      claim t st h s c =
        (saveSwapToKv st h
          { sw with status := .CLAIMED, claimedBy := some c, claimedAt := some t,
                    revealedSecret := some s }, .ok ⟨sw.amountMutez, c⟩)) := by
  unfold claim
  repeat' split
  all_goals try (exact Or.inl ⟨_, rfl⟩)
  rename_i hh hs0 hsv hc x sw heq hopen hexp hsha hrecb
  right
  refine ⟨sw, heq, not_not.1 hopen, by omega, not_not.1 hsha, by simpa using hsv,
    by simpa using hc, by simpa using hrecb, rfl⟩

/-- Total characterization of `refund`. -/
theorem refund_total (t : Nat) (st : Store) (h : List Nat) (r : String) :
    (∃ e, refund t st h r = (st, .error e)) ∨
    (∃ sw, getSwapFromKv st h = some sw ∧ sw.status = .OPEN ∧ sw.expiration ≤ t ∧
      sw.sender = r ∧ presentCaller r = true ∧
      refund t st h r =
        (saveSwapToKv st h { sw with status := .REFUNDED, refundedAt := some t },
         .ok ⟨sw.amountMutez, r⟩)) := by
  unfold refund
  repeat' split
  all_goals try (exact Or.inl ⟨_, rfl⟩)
  rename_i hh hr x sw heq hopen hexp hsnd
  right
  exact ⟨sw, heq, not_not.1 hopen, by omega, not_not.1 hsnd, by simpa using hr, rfl⟩

/-- Total characterization of `initiate`. -/
theorem initiate_total (t : Nat) (st : Store) (h : List Nat) (rec : Option String)
    (exp amt : Nat) (snd : String) :
    (∃ e, initiate t st h rec exp amt snd = (st, .error e)) ∨
    (isValidHashlock h = true ∧ 1000 ≤ amt ∧ 0 < exp ∧ t < exp ∧
      presentCaller snd = true ∧ recipientInvalid rec = false ∧
      getSwapFromKv st h = none ∧
      initiate t st h rec exp amt snd =
        (addSwapKey (saveSwapToKv st h
          { hashlock := h, sender := snd, recipient := normalizeRecipient rec,
            amountMutez := amt, expiration := exp, status := .OPEN, createdAt := t,
            claimedBy := none, claimedAt := none, revealedSecret := none,
            refundedAt := none }) h,
         .ok { hashlock := h, sender := snd, recipient := normalizeRecipient rec,
               amountMutez := amt, expiration := exp, status := .OPEN, createdAt := t,
               claimedBy := none, claimedAt := none, revealedSecret := none,
               refundedAt := none })) := by
  unfold initiate
  repeat' split
  all_goals try (exact Or.inl ⟨_, rfl⟩)
  rename_i hh hamt hexp0 hfut hsnd hrec hdup
  right
  refine ⟨by simpa using hh, by omega, by omega, by omega, by simpa using hsnd,
    by simpa using hrec, ?_, rfl⟩
  simpa using hdup

/-! ## Claim C2 -/

/-- C2: `refund(h, r)` succeeds iff a record exists at `h`, its status is
    `Open`, the time is at or after its expiration, and `r` is the swap's
    sender; on success the swap becomes `Refunded` and a transfer of the full
    escrowed amount back to the sender is emitted.  (The store hypothesis `Inv`
    carries the record well-formedness that `initiate` establishes.) -/
theorem refund_correctness (t : Nat) (st : Store) (h : List Nat) (r : String) (hI : Inv st) :
    (getSwapFromKv st h = none → resultOk (refund t st h r).2 = none) ∧
    (∀ sw, getSwapFromKv st h = some sw →
      (((resultOk (refund t st h r).2).isSome = true) ↔
        (sw.status = .OPEN ∧ sw.expiration ≤ t ∧ r = sw.sender)) ∧
      ((resultOk (refund t st h r).2).isSome = true →
        resultOk (refund t st h r).2 = some ⟨sw.amountMutez, sw.sender⟩ ∧
        getSwapFromKv (refund t st h r).1 h =
          some { sw with status := .REFUNDED, refundedAt := some t })) := by
  constructor
  · intro hn
    rcases refund_total t st h r with ⟨e, he⟩ | ⟨sw, hsw, _⟩
    · rw [he]; rfl
    · rw [hn] at hsw; exact Option.noConfusion hsw
  · intro sw hsw
    have hv := (getSwapFromKv_some st h sw hsw).1
    have hswI := hI (h, sw) (getSwapFromKv_some st h sw hsw).2.2
    have hiff : ((resultOk (refund t st h r).2).isSome = true) ↔
        (sw.status = .OPEN ∧ sw.expiration ≤ t ∧ r = sw.sender) := by
      constructor
      · intro hok
        rcases refund_total t st h r with ⟨e, he⟩ | ⟨sw₂, hsw₂, hopen, hexp, hsnd, _, he⟩
        · rw [he] at hok; exact Bool.noConfusion hok
        · rw [hsw] at hsw₂
          cases hsw₂
          exact ⟨hopen, hexp, hsnd.symm⟩
      · rintro ⟨hopen, hexp, hsnd⟩
        have hp : presentCaller r = true := hsnd ▸ presentCaller_of _ hswI.1 hswI.2.1
        have hres : refund t st h r =
            (saveSwapToKv st h { sw with status := .REFUNDED, refundedAt := some t },
             .ok ⟨sw.amountMutez, r⟩) := by
          unfold refund
          simp [hv, hp, hsw, hopen, hsnd.symm]
          omega
        rw [hres]; rfl
    refine ⟨hiff, fun hok => ?_⟩
    rcases refund_total t st h r with ⟨e, he⟩ | ⟨sw₂, hsw₂, hopen, hexp, hsnd, hp, he⟩
    · rw [he] at hok; exact Bool.noConfusion hok
    · rw [hsw] at hsw₂
      cases hsw₂
      rw [he]
      constructor
      · simp [resultOk, hsnd]
      · simpa using getSwapFromKv_save_self st h _ hv

/-- Witness for C2: a concrete expired open swap is refunded by its sender;
    the record becomes `Refunded` and the full amount is sent back. -/
theorem refund_correctness_witness :
    resultOk (refund 2000000 (mkStore 1) (mkKey 0) "tz1SenderSenderSenderSenderSenderSen").2 =
      some ⟨2000, "tz1SenderSenderSenderSenderSenderSen"⟩ ∧
    getSwapFromKv (refund 2000000 (mkStore 1) (mkKey 0) "tz1SenderSenderSenderSenderSenderSen").1
        (mkKey 0) =
      some { mkSwap 0 with status := .REFUNDED, refundedAt := some 2000000 } := by
  have hmain := (refund_correctness 2000000 (mkStore 1) (mkKey 0)
      "tz1SenderSenderSenderSenderSenderSen" (by decide)).2 (mkSwap 0) (by decide)
  have hok : (resultOk (refund 2000000 (mkStore 1) (mkKey 0)
      "tz1SenderSenderSenderSenderSenderSen").2).isSome = true :=
    hmain.1.2 ⟨by decide, by decide, by decide⟩
  exact hmain.2 hok

/-! ## Claim C1 -/

/-- C1 (amended): `claim(h, s, c)` on a stored record succeeds iff, in
    addition to the four conditions of the original claim, the secret has the
    well-formed 32-byte format and the claimer identity is present (nonempty
    and not `"anonymous"`); and a claim at or after expiration always fails. -/
theorem claim_correctness_amended (t : Nat) (st : Store) (h s : List Nat) (c : String)
    (sw : Swap) (hI : Inv st) (hsw : getSwapFromKv st h = some sw) :
    (((resultOk (claim t st h s c).2).isSome = true) ↔
      (isValidHashlock s = true ∧ presentCaller c = true ∧ sha256 s = h ∧
        t < sw.expiration ∧ sw.status = .OPEN ∧
        (sw.recipient = none ∨ sw.recipient = some c))) ∧
    (sw.expiration ≤ t → resultOk (claim t st h s c).2 = none) := by
  have hv := (getSwapFromKv_some st h sw hsw).1
  have hswI := hI (h, sw) (getSwapFromKv_some st h sw hsw).2.2
  have hiff : ((resultOk (claim t st h s c).2).isSome = true) ↔
      (isValidHashlock s = true ∧ presentCaller c = true ∧ sha256 s = h ∧
        t < sw.expiration ∧ sw.status = .OPEN ∧
        (sw.recipient = none ∨ sw.recipient = some c)) := by
    constructor
    · intro hok
      rcases claim_total t st h s c with ⟨e, he⟩ |
        ⟨sw₂, hsw₂, hopen, hexp, hsha, hsv, hc, hrecb, he⟩
      · rw [he] at hok; exact Bool.noConfusion hok
      · rw [hsw] at hsw₂
        cases hsw₂
        refine ⟨hsv, hc, hsha, hexp, hopen, ?_⟩
        cases hR : sw.recipient with
        | none => exact Or.inl rfl
        | some r0 =>
            right
            by_cases hr0 : r0 = ""
            · exact absurd (by rw [hR, hr0]) hswI.2.2.2.2
            · by_cases hr0c : r0 = c
              · rw [hr0c]
              · rw [hR] at hrecb
                simp [recipientBlocks, hr0, hr0c] at hrecb
    · rintro ⟨hsv, hc, hsha, hexp, hopen, hrec⟩
      have hs0 : s ≠ [] := isValidHashlock_ne_nil s hsv
      have hrb : recipientBlocks sw.recipient c = false := by
        rcases hrec with hn | hsc
        · simp [recipientBlocks, hn]
        · simp [recipientBlocks, hsc]
      have hnle : ¬(sw.expiration ≤ t) := by omega
      have hres : (claim t st h s c).2 = .ok ⟨sw.amountMutez, c⟩ := by
        unfold claim
        simp [hv, hs0, hsv, hc, hsw, hopen, hsha, hrb, hnle]
      rw [hres]; rfl
  refine ⟨hiff, fun hle => ?_⟩
  cases hres2 : resultOk (claim t st h s c).2 with
  | none => rfl
  | some i =>
      have hlt : t < sw.expiration := (hiff.1 (by rw [hres2]; rfl)).2.2.2.1
      omega

/-- A 32-byte secret and a store holding one open swap whose hashlock is its
    digest, with no designated recipient. -/
def secretC1 : List Nat := List.replicate 32 0

/-- The open swap of the C1 counterexample. -/
def swapC1 : Swap :=
  { hashlock := sha256 secretC1, sender := "tz1alice", recipient := none,
    amountMutez := 5000, expiration := 100, status := .OPEN, createdAt := 0,
    claimedBy := none, claimedAt := none, revealedSecret := none, refundedAt := none }

/-- The one-swap store of the C1 counterexample. -/
def storeC1 : Store := ⟨[(sha256 secretC1, swapC1)], [sha256 secretC1]⟩

set_option maxRecDepth 40000 in
/-- C1 counterexample: the record exists, `digest(s) = h`, the time `5` is
    strictly before expiration, the status is `Open` and no recipient is set —
    the original iff promises success — yet the code rejects the claim because
    the claimer identity is the placeholder `"anonymous"`. -/
theorem claim_correctness_counterexample :
    getSwapFromKv storeC1 (sha256 secretC1) = some swapC1 ∧
    sha256 secretC1 = sha256 secretC1 ∧
    (5 : Nat) < swapC1.expiration ∧
    swapC1.status = .OPEN ∧
    swapC1.recipient = none ∧
    (claim 5 storeC1 (sha256 secretC1) secretC1 "anonymous").2 = .error .ClaimerRequired :=
  ⟨by decide, rfl, by decide, rfl, rfl, by decide⟩

set_option maxRecDepth 40000 in
/-- Witness for C1: with a present claimer and the same well-formed secret the
    same claim succeeds. -/
theorem claim_correctness_amended_witness :
    (resultOk (claim 5 storeC1 (sha256 secretC1) secretC1 "tz1bob").2).isSome = true :=
  (claim_correctness_amended 5 storeC1 (sha256 secretC1) secretC1 "tz1bob" swapC1
      (by decide) (by decide)).1.mpr
    ⟨by decide, by decide, rfl, by decide, rfl, Or.inl rfl⟩

/-! ## Claim C3 -/

theorem getSwapFromKv_addSwapKey (st : Store) (k h : List Nat) :
    getSwapFromKv (addSwapKey st k) h = getSwapFromKv st h := by
  unfold getSwapFromKv
  rw [addSwapKey_swaps]

/-- C3 (amended): a stored swap's status only ever changes `Open → Claimed`
    (by `claim`) or `Open → Refunded` (by `refund`), never reversed or skipped;
    once the status is terminal, `claim` and `refund` against it leave the
    store unchanged and — on format-valid requests — fail with `NotOpen`
    (format-invalid requests also fail, but with the format error). -/
theorem status_transitions (t : Nat) (st : Store) (h h₂ s : List Nat) (c r : String)
    (rec : Option String) (exp amt : Nat) (snd : String) (sw : Swap)
    (hsw : getSwapFromKv st h = some sw) :
    (∀ sw', getSwapFromKv (initiate t st h₂ rec exp amt snd).1 h = some sw' → sw' = sw) ∧
    (∀ sw', getSwapFromKv (claim t st h₂ s c).1 h = some sw' →
        sw' = sw ∨ (sw.status = .OPEN ∧ sw'.status = .CLAIMED)) ∧
    (∀ sw', getSwapFromKv (refund t st h₂ r).1 h = some sw' →
        sw' = sw ∨ (sw.status = .OPEN ∧ sw'.status = .REFUNDED)) ∧
    (sw.status ≠ .OPEN →
        (claim t st h s c).1 = st ∧ (refund t st h r).1 = st ∧
        (isValidHashlock s = true → presentCaller c = true →
          (claim t st h s c).2 = .error .SwapNotOpen) ∧
        (presentCaller r = true → (refund t st h r).2 = .error .SwapNotOpen)) := by
  have hv := (getSwapFromKv_some st h sw hsw).1
  refine ⟨?_, ?_, ?_, ?_⟩
  · intro sw' hsw'
    rcases initiate_total t st h₂ rec exp amt snd with ⟨e, he⟩ |
      ⟨hv₂, _, _, _, _, _, hnone, he⟩
    · rw [he] at hsw'
      simp only at hsw'
      rw [hsw] at hsw'
      exact (Option.some.inj hsw').symm
    · rw [he] at hsw'
      simp only at hsw'
      rw [getSwapFromKv_addSwapKey] at hsw'
      have hne : h ≠ h₂ := by
        intro heq
        rw [heq, hnone] at hsw
        exact Option.noConfusion hsw
      rw [getSwapFromKv_save_ne st h₂ h _ hne, hsw] at hsw'
      exact (Option.some.inj hsw').symm
  · intro sw' hsw'
    rcases claim_total t st h₂ s c with ⟨e, he⟩ |
      ⟨sw₂, hsw₂, hopen, _, _, _, _, _, he⟩
    · rw [he] at hsw'
      simp only at hsw'
      rw [hsw] at hsw'
      exact Or.inl (Option.some.inj hsw').symm
    · rw [he] at hsw'
      simp only at hsw'
      by_cases hhh : h = h₂
      · subst hhh
        rw [hsw] at hsw₂
        cases hsw₂
        rw [getSwapFromKv_save_self st h _ hv] at hsw'
        cases Option.some.inj hsw'
        exact Or.inr ⟨hopen, rfl⟩
      · rw [getSwapFromKv_save_ne st h₂ h _ hhh, hsw] at hsw'
        exact Or.inl (Option.some.inj hsw').symm
  · intro sw' hsw'
    rcases refund_total t st h₂ r with ⟨e, he⟩ |
      ⟨sw₂, hsw₂, hopen, _, _, _, he⟩
    · rw [he] at hsw'
      simp only at hsw'
      rw [hsw] at hsw'
      exact Or.inl (Option.some.inj hsw').symm
    · rw [he] at hsw'
      simp only at hsw'
      by_cases hhh : h = h₂
      · subst hhh
        rw [hsw] at hsw₂
        cases hsw₂
        rw [getSwapFromKv_save_self st h _ hv] at hsw'
        cases Option.some.inj hsw'
        exact Or.inr ⟨hopen, rfl⟩
      · rw [getSwapFromKv_save_ne st h₂ h _ hhh, hsw] at hsw'
        exact Or.inl (Option.some.inj hsw').symm
  · intro hterm
    have hcl : (claim t st h s c).1 = st := by
      rcases claim_total t st h s c with ⟨e, he⟩ |
        ⟨sw₂, hsw₂, hopen, _, _, _, _, _, he⟩
      · rw [he]
      · rw [hsw] at hsw₂
        cases hsw₂
        exact absurd hopen hterm
    have hrf : (refund t st h r).1 = st := by
      rcases refund_total t st h r with ⟨e, he⟩ |
        ⟨sw₂, hsw₂, hopen, _, _, _, he⟩
      · rw [he]
      · rw [hsw] at hsw₂
        cases hsw₂
        exact absurd hopen hterm
    refine ⟨hcl, hrf, fun hsv hc => ?_, fun hr => ?_⟩
    · have hs0 : s ≠ [] := isValidHashlock_ne_nil s hsv
      unfold claim
      simp [hv, hs0, hsv, hc, hsw, hterm]
    · unfold refund
      simp [hv, hr, hsw, hterm]

/-- A resolved (claimed) swap at `mkKey 4`. -/
def swapC3 : Swap :=
  { hashlock := mkKey 4, sender := "tz1alice", recipient := none,
    amountMutez := 2000, expiration := 50, status := .CLAIMED, createdAt := 0,
    claimedBy := some "tz1bob", claimedAt := some 10,
    revealedSecret := some secretC1, refundedAt := none }

/-- A store holding only the claimed swap. -/
def storeC3 : Store := ⟨[(mkKey 4, swapC3)], [mkKey 4]⟩

/-- C3 counterexample: against a terminal (claimed) swap, a claim whose secret
    is malformed (31 bytes) fails with the secret-format error, not with
    `NotOpen` as the original claim states. -/
theorem status_transitions_counterexample :
    getSwapFromKv storeC3 (mkKey 4) = some swapC3 ∧
    swapC3.status = .CLAIMED ∧
    (claim 60 storeC3 (mkKey 4) (List.replicate 31 7) "tz1bob").2 =
      .error .InvalidSecretFormat ∧
    HtlcError.InvalidSecretFormat ≠ HtlcError.SwapNotOpen :=
  ⟨by decide, rfl, by decide, by decide⟩

/-- Witness for C3: well-formed claim and refund calls against the claimed swap
    both fail with `NotOpen`, and the claim leaves the store unchanged. -/
theorem status_transitions_witness :
    (claim 60 storeC3 (mkKey 4) (List.replicate 32 7) "tz1bob").2 = .error .SwapNotOpen ∧
    (claim 60 storeC3 (mkKey 4) (List.replicate 32 7) "tz1bob").1 = storeC3 ∧
    (refund 60 storeC3 (mkKey 4) "tz1alice").2 = .error .SwapNotOpen := by
  have hm := (status_transitions 60 storeC3 (mkKey 4) (mkKey 4) (List.replicate 32 7)
      "tz1bob" "tz1alice" none 0 0 "x" swapC3 (by decide)).2.2.2 (by decide)
  exact ⟨hm.2.2.1 (by decide) (by decide), hm.1, hm.2.2.2 (by decide)⟩

/-! ## Claim C7 -/

/-- C7 (amended): within `claim`, the input-format checks come first and all
    precede the record lookup, in the order: hashlock format, secret missing /
    secret not 32 bytes, absent claimer identity (each reported on any store,
    in particular when no record exists); after them the precedence is exactly
    `NotFound`, `NotOpen`, `Expired`, `SecretMismatch`, `Unauthorized`. -/
theorem claim_error_order (t : Nat) (st : Store) (h s : List Nat) (c : String) :
    (isValidHashlock h = false → (claim t st h s c).2 = .error .InvalidHashlockFormat) ∧
    (isValidHashlock h = true → s = [] → (claim t st h s c).2 = .error .SecretRequired) ∧
    (isValidHashlock h = true → s ≠ [] → isValidHashlock s = false →
      (claim t st h s c).2 = .error .InvalidSecretFormat) ∧
    (isValidHashlock h = true → isValidHashlock s = true → presentCaller c = false →
      (claim t st h s c).2 = .error .ClaimerRequired) ∧
    (isValidHashlock h = true → isValidHashlock s = true → presentCaller c = true →
      getSwapFromKv st h = none → (claim t st h s c).2 = .error .SwapNotFound) ∧
    (∀ sw, isValidHashlock s = true → presentCaller c = true →
      getSwapFromKv st h = some sw → sw.status ≠ .OPEN →
      (claim t st h s c).2 = .error .SwapNotOpen) ∧
    (∀ sw, isValidHashlock s = true → presentCaller c = true →
      getSwapFromKv st h = some sw → sw.status = .OPEN →
      sw.expiration ≤ t → (claim t st h s c).2 = .error .SwapExpired) ∧
    (∀ sw, isValidHashlock s = true → presentCaller c = true →
      getSwapFromKv st h = some sw → sw.status = .OPEN →
      t < sw.expiration → sha256 s ≠ h → (claim t st h s c).2 = .error .SecretMismatch) ∧
    (∀ sw r0, isValidHashlock s = true → presentCaller c = true →
      getSwapFromKv st h = some sw → sw.status = .OPEN →
      t < sw.expiration → sha256 s = h → sw.recipient = some r0 → r0 ≠ "" → r0 ≠ c →
      (claim t st h s c).2 = .error .NotRecipient) := by
  refine ⟨fun hbad => ?_, fun hv h0 => ?_, fun hv h0 hbad => ?_, fun hv hsv hcf => ?_,
    fun hv hsv hc hn => ?_, fun sw hsv hc hg hterm => ?_,
    fun sw hsv hc hg hopen hle => ?_, fun sw hsv hc hg hopen hlt hne => ?_,
    fun sw r0 hsv hc hg hopen hlt hsha hrec hr0e hr0c => ?_⟩
  · unfold claim; simp [hbad]
  · unfold claim; simp [hv, h0]
  · unfold claim; simp [hv, h0, hbad]
  · unfold claim; simp [hv, isValidHashlock_ne_nil s hsv, hsv, hcf]
  · unfold claim; simp [hv, isValidHashlock_ne_nil s hsv, hsv, hc, hn]
  · have hv := (getSwapFromKv_some st h sw hg).1
    unfold claim; simp [hv, isValidHashlock_ne_nil s hsv, hsv, hc, hg, hterm]
  · have hv := (getSwapFromKv_some st h sw hg).1
    unfold claim; simp [hv, isValidHashlock_ne_nil s hsv, hsv, hc, hg, hopen, hle]
  · have hv := (getSwapFromKv_some st h sw hg).1
    have hnle : ¬(sw.expiration ≤ t) := by omega
    unfold claim; simp [hv, isValidHashlock_ne_nil s hsv, hsv, hc, hg, hopen, hnle, hne]
  · have hv := (getSwapFromKv_some st h sw hg).1
    have hnle : ¬(sw.expiration ≤ t) := by omega
    have hrb : recipientBlocks sw.recipient c = true := by
      simp [recipientBlocks, hrec, hr0e, hr0c]
    unfold claim
    simp [hv, isValidHashlock_ne_nil s hsv, hsv, hc, hg, hopen, hnle, hsha, hrb]

/-- C7 counterexample: with no record at the hashlock and a malformed (1-byte)
    secret, the code rejects with the secret-format error, although the claimed
    order evaluates record existence (`NotFound`) first. -/
theorem claim_error_order_counterexample :
    getSwapFromKv (⟨[], []⟩ : Store) (mkKey 0) = none ∧
    (claim 0 ⟨[], []⟩ (mkKey 0) [7] "tz1x").2 = .error .InvalidSecretFormat ∧
    HtlcError.InvalidSecretFormat ≠ HtlcError.SwapNotFound :=
  ⟨by decide, by decide, by decide⟩

/-- Witness for C7: on the empty store (no record at all), an absent claimer
    identity is reported before the lookup, and with a present claimer the
    missing record is reported as `NotFound`. -/
theorem claim_error_order_witness :
    (claim 0 ⟨[], []⟩ (mkKey 0) (List.replicate 32 7) "anonymous").2 =
      .error .ClaimerRequired ∧
    (claim 0 ⟨[], []⟩ (mkKey 0) (List.replicate 32 7) "tz1x").2 = .error .SwapNotFound :=
  ⟨(claim_error_order 0 ⟨[], []⟩ (mkKey 0) (List.replicate 32 7) "anonymous").2.2.2.1
      (by decide) (by decide) (by decide),
   (claim_error_order 0 ⟨[], []⟩ (mkKey 0) (List.replicate 32 7) "tz1x").2.2.2.2.1
      (by decide) (by decide) (by decide) (by decide)⟩

/-! ## Claim C9 -/

/-- C9 (amended): when a record exists at hashlock `h` — whatever its status —
    `initiate` with `h` never succeeds and leaves the store unchanged; when the
    call passes the input validations that precede the duplicate check (amount,
    expiration, sender, recipient), the failure is `AlreadyExists`. -/
theorem duplicate_initiate_rejected (t : Nat) (st : Store) (h : List Nat)
    (rec : Option String) (exp amt : Nat) (snd : String) (sw : Swap)
    (hsw : getSwapFromKv st h = some sw) :
    (initiate t st h rec exp amt snd).1 = st ∧
    resultOk (initiate t st h rec exp amt snd).2 = none ∧
    (1000 ≤ amt → 0 < exp → t < exp → presentCaller snd = true →
      recipientInvalid rec = false →
      (initiate t st h rec exp amt snd).2 = .error .AlreadyExists) := by
  have hv := (getSwapFromKv_some st h sw hsw).1
  have hfail : (initiate t st h rec exp amt snd).1 = st ∧
      resultOk (initiate t st h rec exp amt snd).2 = none := by
    rcases initiate_total t st h rec exp amt snd with ⟨e, he⟩ |
      ⟨_, _, _, _, _, _, hnone, he⟩
    · rw [he]; exact ⟨rfl, rfl⟩
    · rw [hnone] at hsw; exact Option.noConfusion hsw
  refine ⟨hfail.1, hfail.2, fun hamt hexp0 hfut hsnd hrec => ?_⟩
  have h1 : ¬(amt < 1000) := by omega
  have h2 : ¬(exp = 0) := by omega
  have h3 : ¬(exp ≤ t) := by omega
  unfold initiate
  simp [hv, h1, h2, h3, hsnd, hrec, hsw]

/-- C9 counterexample: a repeat `initiate` on an existing (already resolved)
    hashlock that also sends a zero amount fails with `InsufficientAmount`,
    not `AlreadyExists` — the amount check precedes the duplicate check. -/
theorem duplicate_initiate_counterexample :
    getSwapFromKv storeC3 (mkKey 4) = some swapC3 ∧
    (initiate 0 storeC3 (mkKey 4) none 999 0 "tz1alice").2 = .error .InsufficientAmount ∧
    HtlcError.InsufficientAmount ≠ HtlcError.AlreadyExists :=
  ⟨by decide, by decide, by decide⟩

/-- Witness for C9: an otherwise valid repeat `initiate` on a resolved swap's
    hashlock fails with `AlreadyExists` and leaves the store unchanged. -/
theorem duplicate_initiate_rejected_witness :
    (initiate 0 storeC3 (mkKey 4) none 999 2000 "tz1alice").1 = storeC3 ∧
    (initiate 0 storeC3 (mkKey 4) none 999 2000 "tz1alice").2 = .error .AlreadyExists := by
  have hm := duplicate_initiate_rejected 0 storeC3 (mkKey 4) none 999 2000 "tz1alice"
    swapC3 (by decide)
  exact ⟨hm.1, hm.2.2 (by decide) (by decide) (by decide) (by decide) (by decide)⟩

/-! ## Claim C6 -/

theorem redactSwap_secret (sw : Swap) (hs : (redactSwap sw).status ≠ .CLAIMED) :
    (redactSwap sw).revealedSecret = none := by
  unfold redactSwap at hs ⊢
  by_cases hcl : sw.status = .CLAIMED
  · rw [if_pos hcl] at hs
    exact absurd hcl hs
  · rw [if_neg hcl]

/-- C6: on every reachable store, the views returned by `getSwap` and
    `listSwaps` carry no `revealedSecret` for any swap that is not claimed,
    and a stored record holds a `revealedSecret` iff its status is `Claimed`. -/
theorem secret_redaction (st : Store) (hR : Reachable st) :
    (∀ h v, getSwap st h = some v → v.status ≠ .CLAIMED → v.revealedSecret = none) ∧
    (∀ f lim v, v ∈ listSwaps st f lim → v.status ≠ .CLAIMED → v.revealedSecret = none) ∧
    (∀ p ∈ st.swaps, (p.2.revealedSecret.isSome ↔ p.2.status = .CLAIMED)) := by
  refine ⟨?_, ?_, fun p hp => (reachable_inv st hR p hp).2.2.2.1⟩
  · intro h v hv hstat
    unfold getSwap at hv
    obtain ⟨sw, hsw, hred⟩ := Option.map_eq_some'.mp hv
    subst hred
    exact redactSwap_secret sw hstat
  · intro f lim v hv hstat
    unfold listSwaps at hv
    obtain ⟨k, hk, hfm⟩ := List.mem_filterMap.mp hv
    cases hg : getSwapFromKv st k with
    | none => rw [hg] at hfm; exact Option.noConfusion hfm
    | some sw =>
        rw [hg] at hfm
        dsimp only at hfm
        by_cases hmatch : statusMatches f sw.status = true
        · rw [if_pos hmatch] at hfm
          cases Option.some.inj hfm
          exact redactSwap_secret sw hstat
        · rw [if_neg hmatch] at hfm
          exact Option.noConfusion hfm

/-- The store after one `initiate` on the empty store. -/
def storeW6 : Store := (initiate 0 ⟨[], []⟩ (mkKey 9) none 100 2000 "tz1alice").1

/-- The swap that `initiate` stores in `storeW6`. -/
def swapW6 : Swap :=
  { hashlock := mkKey 9, sender := "tz1alice", recipient := none,
    amountMutez := 2000, expiration := 100, status := .OPEN, createdAt := 0,
    claimedBy := none, claimedAt := none, revealedSecret := none, refundedAt := none }

/-- Witness for C6: on the concrete reachable one-swap store, the stored open
    record holds no revealed secret. -/
theorem secret_redaction_witness :
    swapW6.revealedSecret.isSome ↔ swapW6.status = SwapStatus.CLAIMED :=
  (secret_redaction storeW6
      (Reachable.step_initiate 0 ⟨[], []⟩ (mkKey 9) none 100 2000 "tz1alice"
        Reachable.empty)).2.2
    (mkKey 9, swapW6) (by decide)

/-! ## Claim C8 (code bug) -/

set_option maxRecDepth 100000 in
/-- C8 fails on the code: with 101 swaps stored, the `/swaps` route called with
    the non-numeric limit `"abc"` returns 101 views — `parseInt` yields `NaN`,
    `Math.min(NaN, 100)` is `NaN`, and `slice(-NaN)` keeps the whole index, so
    the fixed maximum of 100 is not enforced. -/
theorem swaps_limit_cap_bug :
    100 < (swapsEndpoint (mkStore 101) none (some "abc")).length := by decide

/-! ## Claim C10 -/

theorem saveSwapToKv_swapKeys (st : Store) (h : List Nat) (sw : Swap) :
    (saveSwapToKv st h sw).swapKeys = st.swapKeys := rfl

theorem redactSwap_hashlock (sw : Swap) : (redactSwap sw).hashlock = sw.hashlock := by
  unfold redactSwap
  split <;> rfl

theorem getAllSwapKeys_subset (st : Store) (lim : Option Int) (k : List Nat)
    (hk : k ∈ getAllSwapKeys st lim) : k ∈ st.swapKeys := by
  unfold getAllSwapKeys jsSliceStart at hk
  split at hk <;> exact List.drop_subset _ _ hk

theorem jsSliceStart_of_neg {α : Type} (l : List α) (i : Int) (hi : i < 0) :
    jsSliceStart l i = l.drop (((l.length : Int) + i).toNat) := by
  unfold jsSliceStart
  rw [if_pos hi]

/-- `addSwapKey` on a full (1000-key) index evicts the oldest key. -/
theorem addSwapKey_prune (st : Store) (h : List Nat)
    (hlen : st.swapKeys.length = 1000) (hnew : h ∉ st.swapKeys) :
    (addSwapKey st h).swapKeys = st.swapKeys.drop 1 ++ [h] := by
  have hga : getAllSwapKeys st (some 10000) = st.swapKeys := by
    unfold getAllSwapKeys
    exact jsSliceStart_neg_of_le _ 10000 (by omega) (by omega)
  have hcon : (getAllSwapKeys st (some 10000)).contains h = false := by
    cases hc : (getAllSwapKeys st (some 10000)).contains h with
    | false => rfl
    | true =>
        rw [hga] at hc
        exact absurd (List.mem_of_elem_eq_true hc) hnew
  simp only [addSwapKey, hcon, Bool.false_eq_true, if_false]
  rw [hga, jsSliceStart_of_neg _ _ (by norm_num)]
  have hlen2 : (st.swapKeys ++ [h]).length = 1001 := by simp [hlen]
  rw [hlen2]
  have ht : (((1001 : Nat) : Int) + (-1000 : Int)).toNat = 1 := by norm_num
  rw [ht, List.drop_append_of_le_length (by omega)]

/-- C10: a successful `initiate` on a store whose index holds 1000 keys prunes
    the index to the most recent 1000: the oldest key `k₀` is evicted, the
    index becomes `rest ++ [h]` (still 1000 keys), `listSwaps` can no longer
    return `k₀`'s swap, yet `getSwap`-style lookup of `k₀` still finds it. -/
theorem index_pruning (t : Nat) (st : Store) (h : List Nat) (rec : Option String)
    (exp amt : Nat) (snd : String) (swNew : Swap) (k₀ : List Nat)
    (rest : List (List Nat)) (sw₀ : Swap) (hI : Inv st)
    (hkeys : st.swapKeys = k₀ :: rest)
    (hlen : st.swapKeys.length = 1000)
    (hnew : h ∉ st.swapKeys)
    (hk₀ : k₀ ∉ rest)
    (hsw₀ : getSwapFromKv st k₀ = some sw₀)
    (hok : (initiate t st h rec exp amt snd).2 = .ok swNew) :
    (initiate t st h rec exp amt snd).1.swapKeys = rest ++ [h] ∧
    k₀ ∉ (initiate t st h rec exp amt snd).1.swapKeys ∧
    (initiate t st h rec exp amt snd).1.swapKeys.length = 1000 ∧
    getSwapFromKv (initiate t st h rec exp amt snd).1 k₀ = some sw₀ ∧
    (∀ f lim v, v ∈ listSwaps (initiate t st h rec exp amt snd).1 f lim →
      v.hashlock ≠ k₀) := by
  rcases initiate_total t st h rec exp amt snd with ⟨e, he⟩ |
    ⟨hv, _, _, _, _, _, hnone, he⟩
  · rw [he] at hok
    exact Except.noConfusion hok
  · have hk₀h : h ≠ k₀ := by
      intro heq
      exact hnew (heq ▸ (hkeys ▸ List.mem_cons_self k₀ rest))
    have hrlen : rest.length = 999 := by
      rw [hkeys] at hlen
      simpa using hlen
    have hkeys' : (initiate t st h rec exp amt snd).1.swapKeys = rest ++ [h] := by
      rw [he]
      rw [addSwapKey_prune]
      · rw [saveSwapToKv_swapKeys, hkeys]
        rfl
      · rw [saveSwapToKv_swapKeys]; exact hlen
      · rw [saveSwapToKv_swapKeys]; exact hnew
    have hnotmem : k₀ ∉ (initiate t st h rec exp amt snd).1.swapKeys := by
      rw [hkeys']
      intro hmem
      rcases List.mem_append.mp hmem with hm | hm
      · exact hk₀ hm
      · exact hk₀h (List.mem_singleton.mp hm).symm
    have hget : getSwapFromKv (initiate t st h rec exp amt snd).1 k₀ = some sw₀ := by
      rw [he]
      show getSwapFromKv (addSwapKey (saveSwapToKv st h _) h) k₀ = some sw₀
      rw [getSwapFromKv_addSwapKey, getSwapFromKv_save_ne st h k₀ _ (fun hh => hk₀h hh.symm)]
      exact hsw₀
    refine ⟨hkeys', hnotmem, by rw [hkeys']; simp [hrlen], hget, ?_⟩
    intro f lim v hvmem
    have hI' : Inv (initiate t st h rec exp amt snd).1 :=
      inv_initiate t st h rec exp amt snd hI
    unfold listSwaps at hvmem
    obtain ⟨k, hk, hfm⟩ := List.mem_filterMap.mp hvmem
    cases hg : getSwapFromKv (initiate t st h rec exp amt snd).1 k with
    | none => rw [hg] at hfm; exact Option.noConfusion hfm
    | some sw₁ =>
        rw [hg] at hfm
        dsimp only at hfm
        by_cases hmatch : statusMatches f sw₁.status = true
        · rw [if_pos hmatch] at hfm
          cases Option.some.inj hfm
          have hkk : sw₁.hashlock = k :=
            (hI' _ (getSwapFromKv_some _ _ _ hg).2.2).2.2.1
          rw [redactSwap_hashlock, hkk]
          intro heq
          exact hnotmem (heq ▸ getAllSwapKeys_subset _ _ _ hk)
        · rw [if_neg hmatch] at hfm
          exact Option.noConfusion hfm

/-- `mkKey` is injective below `65536`. -/
theorem mkKey_inj (i j : Nat) (hi : i < 65536) (hj : j < 65536)
    (he : mkKey i = mkKey j) : i = j := by
  unfold mkKey at he
  have h1 : i % 256 = j % 256 := by
    have := congrArg (fun l => l.headI) he
    simpa using this
  have h2 : i / 256 % 256 = j / 256 % 256 := by
    have := congrArg (fun l => l.tail.headI) he
    simpa using this
  omega

/-- The 1000-key enumeration index of the C10 witness. -/
def keys1000 : List (List Nat) := (List.range 1000).map mkKey

/-- All keys of `keys1000` except the oldest. -/
def restW10 : List (List Nat) := (List.range 999).map (fun i => mkKey (i + 1))

/-- The C10 witness store: the oldest swap's record plus a full 1000-key index. -/
def storeW10 : Store := ⟨[(mkKey 0, mkSwap 0)], keys1000⟩

theorem keys1000_eq : keys1000 = mkKey 0 :: restW10 := by
  unfold keys1000 restW10
  rw [show (1000 : Nat) = 999 + 1 from rfl, List.range_succ_eq_map]
  simp [List.map_map, Function.comp]

theorem keys1000_length : keys1000.length = 1000 := by
  unfold keys1000
  simp

theorem mkKey2000_not_mem : mkKey 2000 ∉ keys1000 := by
  intro hmem
  simp only [keys1000, List.mem_map, List.mem_range] at hmem
  obtain ⟨i, hi, he⟩ := hmem
  have := mkKey_inj i 2000 (by omega) (by omega) he
  omega

theorem mkKey0_not_mem_rest : mkKey 0 ∉ restW10 := by
  intro hmem
  simp only [restW10, List.mem_map, List.mem_range] at hmem
  obtain ⟨i, hi, he⟩ := hmem
  have := mkKey_inj (i + 1) 0 (by omega) (by omega) he
  omega

/-- The record created by the C10 witness `initiate`. -/
def swapW10 : Swap :=
  { hashlock := mkKey 2000, sender := "tz1snd", recipient := none,
    amountMutez := 2000, expiration := 999999, status := .OPEN, createdAt := 5,
    claimedBy := none, claimedAt := none, revealedSecret := none, refundedAt := none }

set_option maxRecDepth 20000 in
theorem initiateW10_ok :
    (initiate 5 storeW10 (mkKey 2000) none 999999 2000 "tz1snd").2 = .ok swapW10 := by
  have hnone : getSwapFromKv storeW10 (mkKey 2000) = none := by decide
  unfold initiate
  simp [hnone, swapW10]
  decide

set_option maxRecDepth 20000 in
/-- Witness for C10: on the concrete 1000-key store, the successful `initiate`
    evicts the oldest key from the index, keeps the index at 1000 keys, and the
    evicted swap is still retrievable by its id. -/
theorem index_pruning_witness :
    (initiate 5 storeW10 (mkKey 2000) none 999999 2000 "tz1snd").1.swapKeys =
      restW10 ++ [mkKey 2000] ∧
    mkKey 0 ∉ (initiate 5 storeW10 (mkKey 2000) none 999999 2000 "tz1snd").1.swapKeys ∧
    (initiate 5 storeW10 (mkKey 2000) none 999999 2000 "tz1snd").1.swapKeys.length = 1000 ∧
    getSwapFromKv (initiate 5 storeW10 (mkKey 2000) none 999999 2000 "tz1snd").1 (mkKey 0) =
      some (mkSwap 0) := by
  have hm := index_pruning 5 storeW10 (mkKey 2000) none 999999 2000 "tz1snd" swapW10
    (mkKey 0) restW10 (mkSwap 0)
    (by decide)
    keys1000_eq
    keys1000_length
    mkKey2000_not_mem
    mkKey0_not_mem_rest
    (by decide)
    initiateW10_ok
  exact ⟨hm.1, hm.2.1, hm.2.2.1, hm.2.2.2.1⟩

end Htlc
